import Mathlib

/-!
Shallow embedding of the help-hub-order-api repository.

The repository contains four variants of the same small Express service:
  * `src/index.js`               — GraphQL upstream, `cors` package, strict postcode match
  * `src/unnamed/part_000` (1st) — REST upstream, manual CORS middleware, lenient match
  * `src/unnamed/part_000` (2nd) — GraphQL upstream, `cors` package (duplicate of index.js
                                   up to the `orderNumber` field)
  * `src/unnamed/part_001`       — REST upstream via axios, manual CORS middleware, lenient match

We embed the two distinct handler shapes: the GraphQL/strict handler (`gqlHandler`,
from src/index.js) and the REST/lenient handler (`restHandler`, from part_000/part_001,
whose order-lookup logic is line-for-line identical between the two files).
JavaScript `undefined`/`null` string fields are modelled as `""` (every use in the
source is behind JS truthiness or `String(x || '')`), and upstream `await` results
are passed to the handler functions as explicit arguments.
-/

namespace HelpHub

/-- JS string truthiness: a string is truthy iff it is non-empty. -/
def strTruthy (s : String) : Bool := s ≠ ""

/-- Code points matched by the JavaScript regex class `\s`. -/
def jsWhitespaceCodes : List Nat :=
  [9, 10, 11, 12, 13, 32, 160, 0x1680,
   0x2000, 0x2001, 0x2002, 0x2003, 0x2004, 0x2005, 0x2006, 0x2007,
   0x2008, 0x2009, 0x200a, 0x2028, 0x2029, 0x202f, 0x205f, 0x3000, 0xfeff]

/-- Whether a character is matched by the JS regex class `\s`. -/
def isJsSpace (c : Char) : Bool := jsWhitespaceCodes.contains c.toNat

/-- JS `String.prototype.toUpperCase`, restricted to the basic-latin mapping
(the only part exercised by postcodes). -/
def jsToUpper (s : String) : String := ⟨s.toList.map Char.toUpper⟩

/-- JS `s.replace(/\s+/g, "")`: drop every `\s` character. -/
def stripJsSpaces (s : String) : String := ⟨s.toList.filter (fun c => !isJsSpace c)⟩

/-- JS `String.prototype.trim` on a list of characters. -/
def jsTrimList (l : List Char) : List Char :=
  ((l.dropWhile isJsSpace).reverse.dropWhile isJsSpace).reverse

/-- JS `String.prototype.trim`. -/
def jsTrim (s : String) : String := ⟨jsTrimList s.toList⟩

/-- `normalisePostcode` from src/index.js lines 196-198 (identical in part_000
lines 55-57 and part_001 lines 55-57):
`String(s || "").toUpperCase().replace(/\s+/g, "").trim()`. -/
def normalisePostcode (s : String) : String := jsTrim (stripJsSpaces (jsToUpper s))

/-- JS `String.prototype.toLowerCase`, basic-latin mapping; used only to state
case-insensitivity of `normalisePostcode`. -/
def jsToLower (s : String) : String := ⟨s.toList.map Char.toLower⟩

/-- `deriveOrderNumberFromName` from src/index.js lines 220-227: strip one
leading `#`, keep the digits, and fall back to the stripped name when there
are no digits (`digits || clean`); `null` when the name is falsy. -/
def stripLeadingHash (s : String) : String :=
  match s.toList with
  | '#' :: rest => ⟨rest⟩
  | _ => s

/-- JS `s.replace(/[^0-9]/g, "")`: keep only the decimal digits. -/
def digitsOf (s : String) : String := ⟨s.toList.filter Char.isDigit⟩

/-- src/index.js lines 220-227 (`digits || clean`, under JS truthiness). -/
def deriveOrderNumberFromName (name : String) : Option String :=
  if name = "" then none
  else if digitsOf (stripLeadingHash name) ≠ "" then
    some (digitsOf (stripLeadingHash name))
  else some (stripLeadingHash name)

/-! ## REST-variant data model (part_000 first file and part_001)

JS objects are flattened: a missing / `null` string field is modelled as `""`
(every access in the source is behind JS truthiness or feeds `normalisePostcode`,
which sends `null`/`undefined` to `""` via `String(x || '')`). -/

/-- One Shopify fulfillment record, with the fields the composer reads
(part_000 lines 145-152, part_001 lines 129-136). -/
structure Fulfillment where
  tracking_company : String
  shipping_company : String
  tracking_numbers : List String
  tracking_number : String
  tracking_urls : List String
  tracking_url : String
deriving Repr, DecidableEq

/-- A REST line item (part_000 lines 188-195). -/
structure RestLineItem where
  title : String
  sku : String
  product_id : Option Nat
deriving Repr, DecidableEq

/-- A REST product as fetched per id (part_000 lines 177-186). -/
structure RestProduct where
  title : String
  handle : String
  images : List String
deriving Repr, DecidableEq

/-- A REST candidate order. `ship_zip`/`bill_zip` hold the raw zip, with `""`
standing for a missing address or zip: the code computes
`o.shipping_address ? normalisePostcode(o.shipping_address.zip) : ''`, and
`normalisePostcode` maps `""` to `''` as well, so the flattening is exact. -/
structure RestOrder where
  id : Nat
  name : String
  order_number : Nat
  ship_zip : String
  bill_zip : String
  fulfillments : List Fulfillment
  line_items : List RestLineItem
deriving Repr, DecidableEq

/-- One entry of the composed `tracking` array. -/
structure TrackingEntry where
  number : Option String
  url : Option String
  company : Option String
deriving Repr, DecidableEq

/-- Effective tracking-number list of a fulfillment (part_000 lines 147-149):
`Array.isArray(f.tracking_numbers) && f.tracking_numbers.length ?
 f.tracking_numbers : (f.tracking_number ? [f.tracking_number] : [])`. -/
def effNumbers (f : Fulfillment) : List String :=
  if f.tracking_numbers ≠ [] then f.tracking_numbers
  else if strTruthy f.tracking_number then [f.tracking_number] else []

/-- Effective tracking-url list of a fulfillment (part_000 lines 150-152). -/
def effUrls (f : Fulfillment) : List String :=
  if f.tracking_urls ≠ [] then f.tracking_urls
  else if strTruthy f.tracking_url then [f.tracking_url] else []

/-- `f.tracking_company || f.shipping_company || null` (part_000 line 146). -/
def companyOf (f : Fulfillment) : Option String :=
  if strTruthy f.tracking_company then some f.tracking_company
  else if strTruthy f.shipping_company then some f.shipping_company
  else none

/-- `urls[0]` under JS truthiness, as the final fallback of
`urls[idx] || urls[0] || null`. -/
def headTruthy (urls : List String) : Option String :=
  match urls[0]? with
  | some u => if strTruthy u then some u else none
  | none => none

/-- `urls[idx] || urls[0] || null` (part_000 line 158). -/
def urlAt (urls : List String) (idx : Nat) : Option String :=
  match urls[idx]? with
  | some u => if strTruthy u then some u else headTruthy urls
  | none => headTruthy urls

/-- Tracking entries contributed by one fulfillment (part_000 lines 145-169,
identical in part_001 lines 129-153). -/
def fulfillmentTracking (f : Fulfillment) : List TrackingEntry :=
  if effNumbers f ≠ [] then
    (effNumbers f).enum.map (fun p => ⟨some p.2, urlAt (effUrls f) p.1, companyOf f⟩)
  else if effUrls f ≠ [] then
    [⟨none, (effUrls f)[0]?, companyOf f⟩]
  else []

/-- The whole `tracking` array of an order (loop of part_000 lines 143-170). -/
def composeTracking (o : RestOrder) : List TrackingEntry :=
  (o.fulfillments.map fulfillmentTracking).flatten

/-- Modelled from the spec (§4.4 tracking derivation), as the spec-side of the
refinement claim C7: prefer the explicit number list, else the legacy single
number; pair each number with the url at the same position, else the first
url, else null; one null-number entry when only urls exist; skip when neither
exists. -/
def specNumbers (f : Fulfillment) : List String :=
  if f.tracking_numbers ≠ [] then f.tracking_numbers
  else if f.tracking_number ≠ "" then [f.tracking_number] else []

/-- Spec-side effective url list (legacy single url when the list is absent). -/
def specUrls (f : Fulfillment) : List String :=
  if f.tracking_urls ≠ [] then f.tracking_urls
  else if f.tracking_url ≠ "" then [f.tracking_url] else []

/-- Spec-side pairing: the url at the same position, else the first url, else
none. -/
def specUrlAt (urls : List String) (idx : Nat) : Option String :=
  match urls[idx]? with
  | some u => some u
  | none => urls[0]?

/-- Spec-side tracking entries of one fulfillment (spec §4.4). -/
def trackingSpec (f : Fulfillment) : List TrackingEntry :=
  if specNumbers f ≠ [] then
    (specNumbers f).enum.map (fun p => ⟨some p.2, specUrlAt (specUrls f) p.1, companyOf f⟩)
  else
    match (specUrls f)[0]? with
    | some u => [⟨none, some u, companyOf f⟩]
    | none => []

/-- One composed item of the REST variants (part_000 lines 188-196). -/
structure RestItem where
  title : String
  handle : Option String
  image : Option String
  skus : List String
deriving Repr, DecidableEq

/-- `li.product_id ? productsById[li.product_id] : null` — note JS also treats
a `0` id as absent. `products` stands for the per-id fetch results
(`productsById`); a fetch failure is simply a missing key. -/
def lookupProduct (products : Nat → Option RestProduct) (li : RestLineItem) :
    Option RestProduct :=
  match li.product_id with
  | some pid => if pid ≠ 0 then products pid else none
  | none => none

/-- The REST item mapping (part_000 lines 188-196, part_001 lines 173-181). -/
def restItems (products : Nat → Option RestProduct) (lis : List RestLineItem) :
    List RestItem :=
  lis.map (fun li =>
    match lookupProduct products li with
    | some p =>
        ⟨p.title, some p.handle, p.images[0]?,
         if strTruthy li.sku then [li.sku] else []⟩
    | none =>
        ⟨li.title, none, none, if strTruthy li.sku then [li.sku] else []⟩)

/-- The postcode-match test of the lenient loop (part_000 lines 126-137,
part_001 lines 110-121): shipping first, then billing, each guarded by JS
truthiness of the normalised candidate postcode. -/
def restLoopMatch (pc : String) (o : RestOrder) : Bool :=
  let ship := normalisePostcode o.ship_zip
  let bill := normalisePostcode o.bill_zip
  (ship ≠ "" && ship == pc) || (bill ≠ "" && bill == pc)

/-- The lenient resolver: first candidate matching the loop test, else the
first candidate (`if (!order) order = orders[0]`, part_000 lines 138-140). -/
def resolveLenient (orders : List RestOrder) (pc : String) : Option RestOrder :=
  match orders.find? (restLoopMatch pc) with
  | some o => some o
  | none => orders[0]?

/-- The request body of `POST /order-lookup`. -/
structure ReqBody where
  orderCode : String
  postcode : String
deriving Repr, DecidableEq

/-- Success payload of the REST variants (part_000 lines 198-207). -/
structure RestSuccess where
  id : Nat
  name : String
  orderNumber : Nat
  tracking : List TrackingEntry
  items : List RestItem
deriving Repr, DecidableEq

/-- A response of the REST handler: HTTP 200 with the success payload, or an
error status with `{ok:false, error}`. -/
inductive RestResp where
  | success (s : RestSuccess)
  | failure (status : Nat) (error : String)
deriving Repr, DecidableEq

/-- The validation stage of the REST handler (part_000 lines 107-110):
`if (!orderCode || !postcode)` — plain JS truthiness, no trimming. -/
def restValidate (req : ReqBody) : Option RestResp :=
  if req.orderCode = "" ∨ req.postcode = "" then
    some (.failure 400 "Missing orderCode or postcode")
  else none

/-- The `POST /order-lookup` handler of part_000 (first file, lines 105-212)
and part_001 (lines 91-198). `orders` is the upstream order-search result and
`products` the per-id product fetch results. The code returns
404 "Order not found" exactly when the order list is empty (lines 120-122),
which coincides with `resolveLenient` returning `none`. -/
def restHandler (req : ReqBody) (orders : List RestOrder)
    (products : Nat → Option RestProduct) : RestResp :=
  match restValidate req with
  | some resp => resp
  | none =>
    match resolveLenient orders (normalisePostcode req.postcode) with
    | none => .failure 404 "Order not found"
    | some o =>
        .success ⟨o.id, o.name, o.order_number, composeTracking o,
                  restItems products o.line_items⟩

/-! ## GraphQL-variant data model (src/index.js)

Each line-item edge is flattened to the five string fields the dedupe loop
reads (`li.title`, `v.sku`, `p.handle`, `p.title`, `p.featuredImage?.url`),
with `""` for a missing value — each is read only under JS truthiness or an
`|| ""` default. -/

/-- One flattened GraphQL line-item edge (src/index.js lines 143-161). -/
structure GqlLineItem where
  ltitle : String
  sku : String
  handle : String
  ptitle : String
  image : String
deriving Repr, DecidableEq

/-- A GraphQL candidate order node (src/index.js lines 90-113). Zip fields are
the raw zips, `""` for missing (optional chaining ends in `normalisePostcode`,
which maps `undefined` to `""`). -/
structure GqlOrder where
  name : String
  shipZip : String
  billZip : String
  lineItems : List GqlLineItem
deriving Repr, DecidableEq

/-- A composed item of the GraphQL variant (src/index.js lines 149-161). -/
structure Item where
  title : String
  handle : String
  image : String
  skus : List String
deriving Repr, DecidableEq

/-- One step of the dedupe-by-handle loop (src/index.js lines 143-162):
skip items without a handle; create the group on first sight (Map insertion
order = first-seen order); append the sku to its group when truthy and not
already present. -/
def addLineItem (acc : List Item) (li : GqlLineItem) : List Item :=
  if li.handle = "" then acc
  else
    let acc' :=
      if acc.any (fun it => it.handle == li.handle) then acc
      else acc ++ [⟨if strTruthy li.ptitle then li.ptitle
                    else if strTruthy li.ltitle then li.ltitle
                    else li.handle,
                    li.handle, li.image, []⟩]
    if strTruthy li.sku then
      acc'.map (fun it =>
        if it.handle = li.handle ∧ ¬ it.skus.contains li.sku then
          ⟨it.title, it.handle, it.image, it.skus ++ [li.sku]⟩
        else it)
    else acc'

/-- `Array.from(byHandle.values())` after the loop (src/index.js line 164). -/
def composeItems (o : GqlOrder) : List Item :=
  o.lineItems.foldl addLineItem []

/-- The strict postcode match (src/index.js lines 129-133): plain equality on
normalised shipping or billing zip, no truthiness guard. -/
def matchGql (pc : String) (o : GqlOrder) : Bool :=
  normalisePostcode o.shipZip == pc || normalisePostcode o.billZip == pc

/-- Server configuration; `""` models an unset environment variable. -/
structure Config where
  shop : String
  adminToken : String
deriving Repr, DecidableEq

/-- Success payload of src/index.js (lines 172-180). -/
structure GqlSuccess where
  name : String
  orderNumber : Option String
  items : List Item
deriving Repr, DecidableEq

/-- A response of the GraphQL handler. -/
inductive GqlResp where
  | success (s : GqlSuccess)
  | failure (status : Nat) (error : String)
deriving Repr, DecidableEq

/-- The `POST /order-lookup` handler of src/index.js (lines 64-189).
`orders` is the mapped `data.orders.edges` result of the upstream GraphQL
call; validation happens before the upstream call, so a validation failure is
independent of `orders`. -/
def gqlHandler (cfg : Config) (req : ReqBody) (orders : List GqlOrder) : GqlResp :=
  if jsTrim req.orderCode = "" ∨ normalisePostcode req.postcode = "" then
    .failure 400 "Missing orderCode or postcode"
  else if cfg.shop = "" ∨ cfg.adminToken = "" then
    .failure 500 "Server not configured (SHOP / ADMIN_TOKEN missing)"
  else
    match orders.find? (matchGql (normalisePostcode req.postcode)) with
    | none => .failure 404 "Order not found for that postcode."
    | some m =>
        if composeItems m = [] then
          .failure 404 "No products found on that order."
        else
          .success ⟨m.name, deriveOrderNumberFromName m.name, composeItems m⟩

/-! ## Origin gates -/

/-- `origin.replace(/\/$/, "")`: strip one trailing slash. -/
def stripTrailingSlash (s : String) : String :=
  match s.toList.reverse with
  | '/' :: rest => ⟨rest.reverse⟩
  | _ => s

/-- JS `String.prototype.split` with a one-character separator, at the
character-list level: split at every separator, keeping empty pieces. -/
def splitOnChar (sep : Char) (l : List Char) : List (List Char) :=
  match l with
  | [] => [[]]
  | c :: rest =>
    let r := splitOnChar sep rest
    if c = sep then [] :: r
    else
      match r with
      | [] => [[c]]
      | h :: t => (c :: h) :: t

/-- JS `s.split(",")`. -/
def jsSplitCommas (s : String) : List String :=
  (splitOnChar ',' s.toList).map (fun l => ⟨l⟩)

/-- The allow-list of src/index.js (lines 18-20): split on commas, trim each
entry, strip one trailing slash; empty env gives the empty list. -/
def parseAllowedGql (env : String) : List String :=
  if env = "" then []
  else (jsSplitCommas env).map (fun o => stripTrailingSlash (jsTrim o))

/-- Outcome of the `cors`-package origin callback. -/
inductive CorsDecision where
  | allow
  | reject
deriving Repr, DecidableEq

/-- The origin callback of src/index.js (lines 33-54): allow everything when
`ALLOWED_ORIGIN` is unset; allow requests without an Origin header; otherwise
allow iff the slash-stripped origin is in the allow-list, else pass an error
to the callback (the request is rejected before the route handler runs). -/
def corsGql (env : String) (origin : Option String) : CorsDecision :=
  if env = "" then .allow
  else
    match origin with
    | none => .allow
    | some o =>
        if (parseAllowedGql env).contains (stripTrailingSlash o) then .allow
        else .reject

/-- The src/index.js pipeline: the business handler runs only when the CORS
callback allowed the request; `none` models the `cors` middleware passing an
`Error` to `next`, which ends the request before the route handler. -/
def gqlServer (env : String) (origin : Option String) (cfg : Config)
    (req : ReqBody) (orders : List GqlOrder) : Option GqlResp :=
  match corsGql env origin with
  | .reject => none
  | .allow => some (gqlHandler cfg req orders)

/-- `FALLBACK_ORIGINS` of part_001 (lines 21-27); part_000 has the first three
entries only. Used when `ALLOWED_ORIGIN` is not set. -/
def FALLBACK_ORIGINS : List String :=
  ["https://www.ledspace.co.uk",
   "https://ledspace.co.uk",
   "https://ledspace-lighting.myshopify.com",
   "http://localhost:3000",
   "http://127.0.0.1:3000"]

/-- The allow-list of part_000/part_001 (lines 29-32 of part_001): fall back
to `FALLBACK_ORIGINS` when the env var is empty, else split, trim and drop
empty entries — note no trailing-slash stripping in these variants. -/
def parseAllowedRest (env : String) : List String :=
  if env = "" then FALLBACK_ORIGINS
  else ((jsSplitCommas env).map jsTrim).filter strTruthy

/-- The `Access-Control-Allow-Origin` header set by the manual CORS middleware
(part_001 lines 41-43): echo the origin iff it is in the allow-list, else set
no such header. -/
def manualCorsAcao (allowed : List String) (origin : Option String) :
    Option String :=
  match origin with
  | some o => if allowed.contains o then some o else none
  | none => none

/-- The part_000/part_001 pipeline: the middleware always falls through to the
route handler for non-OPTIONS requests (`next()` on line 52), whatever the
origin; the pair returned is (handler response if the handler ran, the ACAO
header). -/
def restServer (env : String) (origin : Option String) (method : String)
    (req : ReqBody) (orders : List RestOrder)
    (products : Nat → Option RestProduct) : Option RestResp × Option String :=
  let acao := manualCorsAcao (parseAllowedRest env) origin
  if method = "OPTIONS" then (none, acao)
  else (some (restHandler req orders products), acao)

/-! ## Character-level lemmas about the basic-latin case mappings -/

theorem toNat_ofNat_valid {n : Nat} (h : n.isValidChar) : (Char.ofNat n).toNat = n := by
  rw [Char.ofNat, dif_pos h]
  rfl

theorem char_eq_of_toNat_eq {a b : Char} (h : a.toNat = b.toNat) : a = b := by
  apply Char.ext
  exact UInt32.toNat.inj h

theorem toUpper_eq_of_not (c : Char) (h : ¬ (97 ≤ c.toNat ∧ c.toNat ≤ 122)) :
    Char.toUpper c = c := by
  rw [Char.toUpper]
  simp only [ge_iff_le]
  rw [if_neg h]

theorem toNat_toUpper_of (c : Char) (h : 97 ≤ c.toNat ∧ c.toNat ≤ 122) :
    (Char.toUpper c).toNat = c.toNat - 32 := by
  rw [Char.toUpper]
  simp only [ge_iff_le]
  rw [if_pos h]
  exact toNat_ofNat_valid (Or.inl (by omega))

theorem toUpper_toUpper (c : Char) : Char.toUpper (Char.toUpper c) = Char.toUpper c := by
  by_cases h : 97 ≤ c.toNat ∧ c.toNat ≤ 122
  · apply toUpper_eq_of_not
    rw [toNat_toUpper_of c h]
    omega
  · rw [toUpper_eq_of_not c h]
    exact toUpper_eq_of_not c h

theorem toLower_eq_of_not (c : Char) (h : ¬ (65 ≤ c.toNat ∧ c.toNat ≤ 90)) :
    Char.toLower c = c := by
  rw [Char.toLower]
  simp only [ge_iff_le]
  rw [if_neg h]

theorem toNat_toLower_of (c : Char) (h : 65 ≤ c.toNat ∧ c.toNat ≤ 90) :
    (Char.toLower c).toNat = c.toNat + 32 := by
  rw [Char.toLower]
  simp only [ge_iff_le]
  rw [if_pos h]
  exact toNat_ofNat_valid (Or.inl (by omega))

theorem toUpper_toLower (c : Char) : Char.toUpper (Char.toLower c) = Char.toUpper c := by
  by_cases h : 65 ≤ c.toNat ∧ c.toNat ≤ 90
  · have h1 : (Char.toLower c).toNat = c.toNat + 32 := toNat_toLower_of c h
    have h2 : (Char.toUpper (Char.toLower c)).toNat = c.toNat := by
      rw [toNat_toUpper_of _ (by omega), h1]
      omega
    rw [toUpper_eq_of_not c (by omega)]
    exact char_eq_of_toNat_eq h2
  · rw [toLower_eq_of_not c h]

theorem isJsSpace_iff (c : Char) : isJsSpace c = true ↔ c.toNat ∈ jsWhitespaceCodes := by
  simp [isJsSpace]

theorem isJsSpace_eq_false_of_alpha {c : Char} (h1 : 65 ≤ c.toNat) (h2 : c.toNat ≤ 122) :
    isJsSpace c = false := by
  rw [Bool.eq_false_iff]
  intro hc
  have := (isJsSpace_iff c).mp hc
  simp [jsWhitespaceCodes] at this
  omega

theorem isJsSpace_toUpper (c : Char) : isJsSpace (Char.toUpper c) = isJsSpace c := by
  by_cases h : 97 ≤ c.toNat ∧ c.toNat ≤ 122
  · rw [isJsSpace_eq_false_of_alpha (c := Char.toUpper c), isJsSpace_eq_false_of_alpha]
    · omega
    · omega
    · rw [toNat_toUpper_of c h]; omega
    · rw [toNat_toUpper_of c h]; omega
  · rw [toUpper_eq_of_not c h]

/-! ## List-level lemmas about the normalisation pipeline -/

theorem map_toUpper_idem (l : List Char) :
    (l.map Char.toUpper).map Char.toUpper = l.map Char.toUpper := by
  induction l with
  | nil => rfl
  | cons c l ih => simp [ih, toUpper_toUpper]

theorem filter_map_toUpper (l : List Char) :
    (l.map Char.toUpper).filter (fun c => !isJsSpace c)
      = (l.filter (fun c => !isJsSpace c)).map Char.toUpper := by
  induction l with
  | nil => rfl
  | cons c l ih =>
    simp only [List.map_cons, List.filter_cons, isJsSpace_toUpper]
    by_cases h : isJsSpace c
    · simp [h, ih]
    · simp [h, ih]

theorem filter_q_idem (l : List Char) :
    (l.filter (fun c => !isJsSpace c)).filter (fun c => !isJsSpace c)
      = l.filter (fun c => !isJsSpace c) := by
  induction l with
  | nil => rfl
  | cons c l ih =>
    by_cases h : isJsSpace c
    · simp [List.filter_cons, h, ih]
    · simp [List.filter_cons, h, ih]

theorem dropWhile_eq_self_of {l : List Char} (h : ∀ c ∈ l, isJsSpace c = false) :
    l.dropWhile isJsSpace = l := by
  cases l with
  | nil => rfl
  | cons c l =>
    rw [List.dropWhile_cons_of_neg]
    simp [h c (by simp)]

theorem jsTrimList_eq_self {l : List Char} (h : ∀ c ∈ l, isJsSpace c = false) :
    jsTrimList l = l := by
  unfold jsTrimList
  rw [dropWhile_eq_self_of h, dropWhile_eq_self_of, List.reverse_reverse]
  intro c hc
  exact h c (List.mem_reverse.mp hc)

/-- The normalisation pipeline at the character-list level. -/
def normList (l : List Char) : List Char :=
  (l.map Char.toUpper).filter (fun c => !isJsSpace c)

theorem normalisePostcode_eq (s : String) :
    normalisePostcode s = ⟨normList s.toList⟩ := by
  unfold normalisePostcode jsTrim stripJsSpaces jsToUpper normList
  congr 1
  apply jsTrimList_eq_self
  intro c hc
  have := (List.mem_filter.mp hc).2
  simpa using this

theorem normList_idem (l : List Char) : normList (normList l) = normList l := by
  unfold normList
  rw [← filter_map_toUpper (l.map Char.toUpper), map_toUpper_idem, filter_q_idem]

theorem normalisePostcode_idem (s : String) :
    normalisePostcode (normalisePostcode s) = normalisePostcode s := by
  rw [normalisePostcode_eq s, normalisePostcode_eq ⟨normList s.toList⟩]
  rw [show (⟨normList s.toList⟩ : String).toList = normList s.toList from rfl]
  rw [normList_idem]

theorem normalisePostcode_toLower (s : String) :
    normalisePostcode (jsToLower s) = normalisePostcode s := by
  rw [normalisePostcode_eq, normalisePostcode_eq s]
  congr 1
  unfold normList jsToLower
  rw [show (⟨s.toList.map Char.toLower⟩ : String).toList = s.toList.map Char.toLower from rfl]
  rw [List.map_map]
  congr 1
  apply List.map_congr_left
  intro c _
  exact toUpper_toLower c

theorem normalisePostcode_stripSpaces (s : String) :
    normalisePostcode (stripJsSpaces s) = normalisePostcode s := by
  rw [normalisePostcode_eq, normalisePostcode_eq s]
  congr 1
  unfold normList stripJsSpaces
  rw [show (⟨s.toList.filter (fun c => !isJsSpace c)⟩ : String).toList
        = s.toList.filter (fun c => !isJsSpace c) from rfl]
  rw [← filter_map_toUpper, filter_q_idem]

/-! ## A `find?` helper shared by the resolver claims -/

theorem find?_append_cons {α : Type} (p : α → Bool) (pre post : List α) (o : α)
    (hpre : ∀ x ∈ pre, p x = false) (ho : p o = true) :
    (pre ++ o :: post).find? p = some o := by
  induction pre with
  | nil =>
    simp only [List.nil_append]
    rw [List.find?_cons_of_pos _ ho]
  | cons a pre ih =>
    rw [List.cons_append, List.find?_cons_of_neg]
    · exact ih (fun x hx => hpre x (List.mem_cons_of_mem a hx))
    · simp [hpre a (List.mem_cons_self a pre)]

/-! ## Lemmas relating the tracking composer to its spec-side description -/

theorem effNumbers_eq_spec (f : Fulfillment) : effNumbers f = specNumbers f := by
  by_cases h : f.tracking_number = ""
  · simp [effNumbers, specNumbers, strTruthy, h]
  · simp [effNumbers, specNumbers, strTruthy, h]

theorem effUrls_eq_spec (f : Fulfillment) : effUrls f = specUrls f := by
  by_cases h : f.tracking_url = ""
  · simp [effUrls, specUrls, strTruthy, h]
  · simp [effUrls, specUrls, strTruthy, h]

theorem mem_effUrls_ne_empty (f : Fulfillment)
    (h : ∀ u ∈ f.tracking_urls, u ≠ "") :
    ∀ u ∈ effUrls f, u ≠ "" := by
  intro u hu
  unfold effUrls at hu
  split at hu
  · exact h u hu
  · split at hu
    · next htr =>
      simp at hu
      subst hu
      simpa [strTruthy] using htr
    · simp at hu

theorem urlAt_eq_spec (urls : List String) (h : ∀ u ∈ urls, u ≠ "") (i : Nat) :
    urlAt urls i = specUrlAt urls i := by
  unfold urlAt specUrlAt headTruthy
  cases hgi : urls[i]? with
  | some u =>
    have hu : u ≠ "" := h u (List.getElem?_mem hgi)
    simp [strTruthy, hu]
  | none =>
    cases hg0 : urls[0]? with
    | some u0 =>
      have hu : u0 ≠ "" := h u0 (List.getElem?_mem hg0)
      simp [strTruthy, hu]
    | none => rfl

/-! ## Claims -/

/-- Claim C9 (confirmed): `normalisePostcode` is idempotent, insensitive to
letter case and to (interior) whitespace, and in particular sends
`"SW1A 1AA"` and `"sw1a1aa"` to the same string. -/
theorem c9_normalise_properties :
    (∀ p : String, normalisePostcode (normalisePostcode p) = normalisePostcode p)
    ∧ (∀ p : String, normalisePostcode (jsToLower p) = normalisePostcode p)
    ∧ (∀ p : String, normalisePostcode (stripJsSpaces p) = normalisePostcode p)
    ∧ normalisePostcode "SW1A 1AA" = normalisePostcode "sw1a1aa" :=
  ⟨normalisePostcode_idem, normalisePostcode_toLower, normalisePostcode_stripSpaces,
   by decide⟩

/-- Claim C1, counterexample: the REST handler (part_000/part_001) returns a
200 success whose `items` array is empty when the matched order has no line
items — composition yielded zero items, yet no 404 is produced. -/
theorem c1_counterexample :
    restHandler ⟨"1001", "AB1"⟩ [⟨1, "#1001", 1001, "AB1", "", [], []⟩] (fun _ => none)
      = .success ⟨1, "#1001", 1001, [], []⟩ := by decide

/-- Claim C1 (amended): in the GraphQL variant (src/index.js) every success
response has a non-empty `items` array, and zero composed items yield the
404 "No products found on that order." response; the REST variants lack this
check. -/
theorem c1_items_nonempty_amended :
    (∀ (cfg : Config) (req : ReqBody) (orders : List GqlOrder) (s : GqlSuccess),
      gqlHandler cfg req orders = .success s → s.items ≠ [])
    ∧ (∀ (cfg : Config) (req : ReqBody) (orders : List GqlOrder) (m : GqlOrder),
      jsTrim req.orderCode ≠ "" → normalisePostcode req.postcode ≠ "" →
      cfg.shop ≠ "" → cfg.adminToken ≠ "" →
      orders.find? (matchGql (normalisePostcode req.postcode)) = some m →
      composeItems m = [] →
      gqlHandler cfg req orders = .failure 404 "No products found on that order.") := by
  constructor
  · intro cfg req orders s h
    unfold gqlHandler at h
    split at h
    · exact GqlResp.noConfusion h
    · split at h
      · exact GqlResp.noConfusion h
      · split at h
        · exact GqlResp.noConfusion h
        · split at h
          · exact GqlResp.noConfusion h
          · next hne =>
            cases h
            simpa using hne
  · intro cfg req orders m h1 h2 h3 h4 hfind hempty
    unfold gqlHandler
    rw [if_neg (by tauto), if_neg (by tauto), hfind]
    simp [hempty]

/-- Witness for C1: a GraphQL request whose matched order dedupes to zero
items gets the dedicated 404, and a successful one has non-empty items. -/
theorem c1_witness :
    GqlSuccess.items ⟨"#1001", some "1001", [⟨"PT", "h", "img", ["S1"]⟩]⟩ ≠ []
    ∧ gqlHandler ⟨"shop", "token"⟩ ⟨"1001", "AB1"⟩ [⟨"#1001", "AB1", "", []⟩]
        = .failure 404 "No products found on that order." :=
  ⟨c1_items_nonempty_amended.1 ⟨"shop", "token"⟩ ⟨"1001", "AB1"⟩
      [⟨"#1001", "AB1", "", [⟨"T", "S1", "h", "PT", "img"⟩]⟩]
      ⟨"#1001", some "1001", [⟨"PT", "h", "img", ["S1"]⟩]⟩ (by decide),
   c1_items_nonempty_amended.2 ⟨"shop", "token"⟩ ⟨"1001", "AB1"⟩
      [⟨"#1001", "AB1", "", []⟩] ⟨"#1001", "AB1", "", []⟩
      (by decide) (by decide) (by decide) (by decide) (by decide) (by decide)⟩

/-- Claim C2, counterexample: in the REST variants a whitespace-only postcode
passes validation (`!postcode` does not trim), so no 400 is returned and the
handler consumes the upstream result — with an empty upstream list it reaches
the 404 branch, and with a matching upstream order it succeeds. -/
theorem c2_counterexample :
    restValidate ⟨"X", " "⟩ = none
    ∧ restHandler ⟨"X", " "⟩ [] (fun _ => none) = .failure 404 "Order not found"
    ∧ restHandler ⟨"X", " "⟩ [⟨1, "#1001", 1001, "AB1", "", [], []⟩] (fun _ => none)
        ≠ .failure 400 "Missing orderCode or postcode" := by decide

/-- Claim C2 (amended): src/index.js rejects with 400 whenever the trimmed
orderCode or the normalised postcode is empty, for every upstream result (the
validation precedes the upstream call); the REST variants only reject absent
or empty-string fields, a whitespace-only value slipping through. -/
theorem c2_validation_amended :
    (∀ (cfg : Config) (req : ReqBody),
      (jsTrim req.orderCode = "" ∨ normalisePostcode req.postcode = "") →
      ∀ orders : List GqlOrder,
        gqlHandler cfg req orders = .failure 400 "Missing orderCode or postcode")
    ∧ (∀ req : ReqBody, (req.orderCode = "" ∨ req.postcode = "") →
      ∀ (orders : List RestOrder) (products : Nat → Option RestProduct),
        restHandler req orders products = .failure 400 "Missing orderCode or postcode") := by
  constructor
  · intro cfg req h orders
    unfold gqlHandler
    rw [if_pos h]
  · intro req h orders products
    unfold restHandler restValidate
    rw [if_pos h]

/-- Witness for C2: whitespace-only postcode gets 400 in src/index.js with
any upstream result, and an empty orderCode gets 400 in the REST variants. -/
theorem c2_witness :
    gqlHandler ⟨"shop", "token"⟩ ⟨"1001", "   "⟩ []
      = .failure 400 "Missing orderCode or postcode"
    ∧ restHandler ⟨"", "AB1"⟩ [] (fun _ => none)
      = .failure 400 "Missing orderCode or postcode" :=
  ⟨c2_validation_amended.1 ⟨"shop", "token"⟩ ⟨"1001", "   "⟩ (by decide) [],
   c2_validation_amended.2 ⟨"", "AB1"⟩ (by decide) [] (fun _ => none)⟩

/-- Claim C3, counterexample: in the manual-middleware variants an Origin not
in the non-empty allow-list gets no ACAO header, yet the order-lookup handler
still runs (`next()` is called unconditionally for non-OPTIONS requests). -/
theorem c3_counterexample :
    parseAllowedRest "https://www.ledspace.co.uk" = ["https://www.ledspace.co.uk"]
    ∧ ("https://evil.example" ∈ parseAllowedRest "https://www.ledspace.co.uk" → False)
    ∧ (restServer "https://www.ledspace.co.uk" (some "https://evil.example") "POST"
        ⟨"1001", "AB11AA"⟩ [] (fun _ => none)).1
        = some (.failure 404 "Order not found")
    ∧ (restServer "https://www.ledspace.co.uk" (some "https://evil.example") "POST"
        ⟨"1001", "AB11AA"⟩ [] (fun _ => none)).2 = none := by decide

/-- Claim C3 (amended): with a non-empty allow-list and a non-member Origin,
no variant emits an ACAO header; the src/index.js variant additionally
rejects the request before the handler runs, while the manual-middleware
variants still invoke the handler on non-OPTIONS requests. -/
theorem c3_origin_gate_amended :
    (∀ (env o : String) (cfg : Config) (req : ReqBody) (orders : List GqlOrder),
      env ≠ "" →
      (parseAllowedGql env).contains (stripTrailingSlash o) = false →
      gqlServer env (some o) cfg req orders = none)
    ∧ (∀ env o : String, (parseAllowedRest env).contains o = false →
      manualCorsAcao (parseAllowedRest env) (some o) = none)
    ∧ (∀ (env o method : String) (req : ReqBody) (orders : List RestOrder)
        (products : Nat → Option RestProduct), method ≠ "OPTIONS" →
      (restServer env (some o) method req orders products).1
        = some (restHandler req orders products)) := by
  refine ⟨?_, ?_, ?_⟩
  · intro env o cfg req orders h1 h2
    have hmem : stripTrailingSlash o ∉ parseAllowedGql env := by simpa using h2
    unfold gqlServer corsGql
    rw [if_neg h1]
    simp [hmem]
  · intro env o h
    have hmem : o ∉ parseAllowedRest env := by simpa using h
    unfold manualCorsAcao
    simp [hmem]
  · intro env o method req orders products h
    unfold restServer
    rw [if_neg h]

/-- Witness for C3: a concrete disallowed origin is rejected before the
handler in src/index.js, gets no ACAO header in the manual variants, and the
manual pipeline still runs the handler. -/
theorem c3_witness :
    gqlServer "https://a.com" (some "https://evil.example") ⟨"s", "t"⟩ ⟨"1", "AB1"⟩ []
      = none
    ∧ manualCorsAcao (parseAllowedRest "https://a.com") (some "https://evil.example")
      = none
    ∧ (restServer "https://a.com" (some "https://evil.example") "POST" ⟨"1", "AB1"⟩ []
        (fun _ => none)).1 = some (restHandler ⟨"1", "AB1"⟩ [] (fun _ => none)) :=
  ⟨c3_origin_gate_amended.1 "https://a.com" "https://evil.example" ⟨"s", "t"⟩
      ⟨"1", "AB1"⟩ [] (by decide) (by decide),
   c3_origin_gate_amended.2.1 "https://a.com" "https://evil.example" (by decide),
   c3_origin_gate_amended.2.2 "https://a.com" "https://evil.example" "POST"
      ⟨"1", "AB1"⟩ [] (fun _ => none) (by decide)⟩

/-- Claim C4 (confirmed): in the strict variant (src/index.js), when no
candidate's normalised shipping or billing postcode equals the target the
handler answers 404 "Order not found for that postcode." — also for the empty
list; the lenient resolver likewise reports not-found on an empty list, and
the REST handler answers 404 "Order not found" there. -/
theorem c4_strict_not_found :
    (∀ (cfg : Config) (req : ReqBody) (orders : List GqlOrder),
      jsTrim req.orderCode ≠ "" → normalisePostcode req.postcode ≠ "" →
      cfg.shop ≠ "" → cfg.adminToken ≠ "" →
      (∀ o ∈ orders,
        normalisePostcode o.shipZip ≠ normalisePostcode req.postcode ∧
        normalisePostcode o.billZip ≠ normalisePostcode req.postcode) →
      gqlHandler cfg req orders = .failure 404 "Order not found for that postcode.")
    ∧ (∀ pc : String, resolveLenient [] pc = none)
    ∧ (∀ (req : ReqBody) (products : Nat → Option RestProduct),
      req.orderCode ≠ "" → req.postcode ≠ "" →
      restHandler req [] products = .failure 404 "Order not found") := by
  refine ⟨?_, ?_, ?_⟩
  · intro cfg req orders h1 h2 h3 h4 h5
    have hfind : orders.find? (matchGql (normalisePostcode req.postcode)) = none := by
      rw [List.find?_eq_none]
      intro o ho
      have hm := h5 o ho
      simp [matchGql, hm.1, hm.2]
    unfold gqlHandler
    rw [if_neg (by tauto), if_neg (by tauto), hfind]
  · intro pc
    rfl
  · intro req products h1 h2
    unfold restHandler restValidate
    rw [if_neg (by tauto)]
    rfl

/-- Witness for C4: a non-empty candidate list with no postcode match gets
the strict 404, and an empty list gets 404 in the lenient variant. -/
theorem c4_witness :
    gqlHandler ⟨"shop", "token"⟩ ⟨"1001", "AB1 1AA"⟩ [⟨"#1", "ZZ9", "YY8", []⟩]
      = .failure 404 "Order not found for that postcode."
    ∧ restHandler ⟨"1001", "AB11AA"⟩ [] (fun _ => none)
      = .failure 404 "Order not found" :=
  ⟨c4_strict_not_found.1 ⟨"shop", "token"⟩ ⟨"1001", "AB1 1AA"⟩ [⟨"#1", "ZZ9", "YY8", []⟩]
      (by decide) (by decide) (by decide) (by decide) (by decide),
   c4_strict_not_found.2.2 ⟨"1001", "AB11AA"⟩ (fun _ => none) (by decide) (by decide)⟩

/-- Claim C5 (confirmed): in the lenient variants, when no candidate's
normalised shipping or billing postcode equals the target, the resolver falls
back to the first candidate of a non-empty list. -/
theorem c5_lenient_fallback_first :
    ∀ (o : RestOrder) (rest : List RestOrder) (pc : String),
      (∀ x ∈ o :: rest,
        normalisePostcode x.ship_zip ≠ pc ∧ normalisePostcode x.bill_zip ≠ pc) →
      resolveLenient (o :: rest) pc = some o := by
  intro o rest pc h
  have hfind : (o :: rest).find? (restLoopMatch pc) = none := by
    rw [List.find?_eq_none]
    intro x hx
    have hm := h x hx
    simp [restLoopMatch, hm.1, hm.2]
  unfold resolveLenient
  rw [hfind]
  simp

/-- Witness for C5: two non-matching candidates; the first one is returned. -/
theorem c5_witness :
    resolveLenient [⟨1, "a", 1, "ZZ9", "", [], []⟩, ⟨2, "b", 2, "YY8", "", [], []⟩]
      "AB11AA" = some ⟨1, "a", 1, "ZZ9", "", [], []⟩ :=
  c5_lenient_fallback_first ⟨1, "a", 1, "ZZ9", "", [], []⟩
    [⟨2, "b", 2, "YY8", "", [], []⟩] "AB11AA" (by decide)

/-- Claim C6, counterexample: in the part_000/part_001 variants an empty
`ALLOWED_ORIGIN` selects the non-empty `FALLBACK_ORIGINS` list instead of the
empty (permissive) one, and an origin outside it is not allowed (no ACAO). -/
theorem c6_counterexample :
    parseAllowedRest "" = FALLBACK_ORIGINS
    ∧ FALLBACK_ORIGINS ≠ []
    ∧ manualCorsAcao (parseAllowedRest "") (some "https://evil.example") = none := by decide

/-- Claim C6 (amended): in src/index.js an empty `ALLOWED_ORIGIN` makes the
origin gate allow every request; in the fallback variants it instead selects
the non-empty `FALLBACK_ORIGINS` allow-list, and origins outside that list
are not allowed (not echoed). -/
theorem c6_empty_allowlist_amended :
    (∀ origin : Option String, corsGql "" origin = .allow)
    ∧ (∀ (origin : Option String) (cfg : Config) (req : ReqBody)
        (orders : List GqlOrder),
      gqlServer "" origin cfg req orders = some (gqlHandler cfg req orders))
    ∧ parseAllowedRest "" = FALLBACK_ORIGINS
    ∧ FALLBACK_ORIGINS ≠ []
    ∧ (∀ o : String, o ∉ FALLBACK_ORIGINS →
      manualCorsAcao (parseAllowedRest "") (some o) = none) := by
  refine ⟨?_, ?_, rfl, by decide, ?_⟩
  · intro origin
    rfl
  · intro origin cfg req orders
    rfl
  · intro o h
    simp [manualCorsAcao, parseAllowedRest, h]

/-- Witness for C6: any origin is allowed by src/index.js with an empty env,
while a concrete foreign origin is not echoed by the fallback variants. -/
theorem c6_witness :
    corsGql "" (some "https://anything.example") = .allow
    ∧ manualCorsAcao (parseAllowedRest "") (some "https://evil.example") = none :=
  ⟨c6_empty_allowlist_amended.1 (some "https://anything.example"),
   c6_empty_allowlist_amended.2.2.2.2 "https://evil.example" (by decide)⟩

/-- Claim C7 (confirmed): per fulfillment the composer emits one entry per
effective tracking number (explicit list preferred, legacy single number as
fallback), pairing index-wise with the url list with first-url and null
fallbacks, one null-number entry when only urls exist, nothing when neither
exists — stated as equality with the spec-side derivation for url lists
without empty strings — and the concrete `["A","B"]`/`["u1"]` fulfillment
yields exactly `{A,u1}`, `{B,u1}`. -/
theorem c7_tracking_refinement :
    (∀ f : Fulfillment, (∀ u ∈ f.tracking_urls, u ≠ "") →
      fulfillmentTracking f = trackingSpec f)
    ∧ fulfillmentTracking ⟨"", "", ["A", "B"], "", ["u1"], ""⟩
        = [⟨some "A", some "u1", none⟩, ⟨some "B", some "u1", none⟩] := by
  constructor
  · intro f h
    have hurls : ∀ u ∈ effUrls f, u ≠ "" := mem_effUrls_ne_empty f h
    unfold fulfillmentTracking trackingSpec
    rw [← effNumbers_eq_spec f, ← effUrls_eq_spec f]
    by_cases hn : effNumbers f = []
    · simp only [hn, ne_eq, not_true_eq_false, if_false]
      cases hu0 : (effUrls f)[0]? with
      | some u =>
        have hne : effUrls f ≠ [] := by
          intro he
          rw [he] at hu0
          simp at hu0
        simp [hne, hu0]
      | none =>
        have he : effUrls f = [] := by
          cases hul : effUrls f with
          | nil => rfl
          | cons a l =>
            rw [hul] at hu0
            simp at hu0
        simp [he]
    · simp only [hn, ne_eq, not_false_eq_true, if_true]
      apply List.map_congr_left
      intro p hp
      rw [urlAt_eq_spec (effUrls f) hurls]
  · decide

/-- Witness for C7: the refinement applied to the concrete fulfillment of the
claim. -/
theorem c7_witness :
    fulfillmentTracking ⟨"", "", ["A", "B"], "", ["u1"], ""⟩
      = trackingSpec ⟨"", "", ["A", "B"], "", ["u1"], ""⟩ :=
  c7_tracking_refinement.1 ⟨"", "", ["A", "B"], "", ["u1"], ""⟩ (by decide)

/-- Claim C8, counterexample: with an empty normalised target postcode, the
lenient resolver skips the (unique) candidate whose shipping postcode
normalises to the target — the truthiness guard `shipPc &&` rejects it — and
falls back to the first candidate instead of returning the matching one. -/
theorem c8_counterexample :
    normalisePostcode " " = ""
    ∧ normalisePostcode "AA11AA" ≠ ""
    ∧ normalisePostcode "BB22BB" ≠ ""
    ∧ normalisePostcode "CC33CC" ≠ ""
    ∧ resolveLenient
        [⟨0, "a", 0, "AA11AA", "BB22BB", [], []⟩, ⟨1, "b", 1, " ", "CC33CC", [], []⟩] ""
        = some ⟨0, "a", 0, "AA11AA", "BB22BB", [], []⟩
    ∧ resolveLenient
        [⟨0, "a", 0, "AA11AA", "BB22BB", [], []⟩, ⟨1, "b", 1, " ", "CC33CC", [], []⟩] ""
        ≠ some ⟨1, "b", 1, " ", "CC33CC", [], []⟩ := by decide

/-- Claim C8 (amended): when exactly one candidate's normalised shipping
postcode equals the target and no billing postcode does, the strict resolver
returns that candidate regardless of position, and the lenient resolver does
too provided the target postcode is non-empty after normalisation (its
truthiness guard skips empty candidate postcodes). -/
theorem c8_unique_ship_match_amended :
    (∀ (pc : String) (pre post : List GqlOrder) (o : GqlOrder),
      normalisePostcode o.shipZip = pc →
      (∀ x ∈ pre, normalisePostcode x.shipZip ≠ pc) →
      (∀ x ∈ post, normalisePostcode x.shipZip ≠ pc) →
      (∀ x ∈ pre ++ o :: post, normalisePostcode x.billZip ≠ pc) →
      (pre ++ o :: post).find? (matchGql pc) = some o)
    ∧ (∀ (pc : String) (pre post : List RestOrder) (o : RestOrder),
      pc ≠ "" →
      normalisePostcode o.ship_zip = pc →
      (∀ x ∈ pre, normalisePostcode x.ship_zip ≠ pc) →
      (∀ x ∈ post, normalisePostcode x.ship_zip ≠ pc) →
      (∀ x ∈ pre ++ o :: post, normalisePostcode x.bill_zip ≠ pc) →
      resolveLenient (pre ++ o :: post) pc = some o) := by
  constructor
  · intro pc pre post o ho hpre hpost hbill
    apply find?_append_cons
    · intro x hx
      have hb := hbill x (by simp [hx])
      simp [matchGql, hpre x hx, hb]
    · simp [matchGql, ho]
  · intro pc pre post o hpc ho hpre hpost hbill
    have h1 : ∀ x ∈ pre, restLoopMatch pc x = false := by
      intro x hx
      have hb := hbill x (by simp [hx])
      simp [restLoopMatch, hpre x hx, hb]
    have h2 : restLoopMatch pc o = true := by
      simp [restLoopMatch, ho, hpc]
    unfold resolveLenient
    rw [find?_append_cons _ pre post o h1 h2]

/-- Witness for C8: a unique shipping-postcode match in second position is
returned by both resolvers. -/
theorem c8_witness :
    (([⟨"#1", "ZZ9", "Q1", []⟩] : List GqlOrder)
        ++ (⟨"#2", "AB1", "Q2", []⟩ : GqlOrder) :: [⟨"#3", "ZZ8", "Q3", []⟩]).find?
        (matchGql "AB1") = some ⟨"#2", "AB1", "Q2", []⟩
    ∧ resolveLenient
        (([⟨1, "a", 1, "ZZ9", "Q1", [], []⟩] : List RestOrder) ++
          (⟨2, "b", 2, "AB1", "Q2", [], []⟩ : RestOrder)
            :: [⟨3, "c", 3, "ZZ8", "Q3", [], []⟩]) "AB1"
        = some ⟨2, "b", 2, "AB1", "Q2", [], []⟩ :=
  ⟨c8_unique_ship_match_amended.1 "AB1" [⟨"#1", "ZZ9", "Q1", []⟩]
      [⟨"#3", "ZZ8", "Q3", []⟩] ⟨"#2", "AB1", "Q2", []⟩
      (by decide) (by decide) (by decide) (by decide),
   c8_unique_ship_match_amended.2 "AB1" [⟨1, "a", 1, "ZZ9", "Q1", [], []⟩]
      [⟨3, "c", 3, "ZZ8", "Q3", [], []⟩] ⟨2, "b", 2, "AB1", "Q2", [], []⟩
      (by decide) (by decide) (by decide) (by decide) (by decide)⟩

/-- Claim C10, counterexample: `deriveOrderNumberFromName "#"` returns the
empty string (JS `"" || ""` is `""`), although the name `"#"` is non-empty,
so the derived order number is not "never the empty string". -/
theorem c10_counterexample :
    ("#" : String) ≠ "" ∧ deriveOrderNumberFromName "#" = some "" := by decide

/-- Claim C10 (amended): in src/index.js the success payload's `orderNumber`
is `deriveOrderNumberFromName` of the matched order's name; it is null
exactly for the empty name, otherwise the digits of the name after stripping
one leading `#`, or the stripped name when there are no digits; it is the
empty string exactly for the name `"#"` (and otherwise never empty). -/
theorem c10_order_number_amended :
    (∀ (cfg : Config) (req : ReqBody) (orders : List GqlOrder) (s : GqlSuccess),
      gqlHandler cfg req orders = .success s →
      s.orderNumber = deriveOrderNumberFromName s.name)
    ∧ (∀ name : String, deriveOrderNumberFromName name = none ↔ name = "")
    ∧ (∀ name : String, name ≠ "" →
      deriveOrderNumberFromName name
        = some (if digitsOf (stripLeadingHash name) ≠ ""
                then digitsOf (stripLeadingHash name)
                else stripLeadingHash name))
    ∧ (∀ name : String, deriveOrderNumberFromName name = some "" ↔ name = "#") := by
  refine ⟨?_, ?_, ?_, ?_⟩
  · intro cfg req orders s h
    unfold gqlHandler at h
    split at h
    · exact GqlResp.noConfusion h
    · split at h
      · exact GqlResp.noConfusion h
      · split at h
        · exact GqlResp.noConfusion h
        · split at h
          · exact GqlResp.noConfusion h
          · cases h
            rfl
  · intro name
    by_cases hn : name = ""
    · simp [deriveOrderNumberFromName, hn]
    · by_cases hd : digitsOf (stripLeadingHash name) = ""
      · simp [deriveOrderNumberFromName, hn, hd]
      · simp [deriveOrderNumberFromName, hn, hd]
  · intro name hn
    unfold deriveOrderNumberFromName
    rw [if_neg hn]
    by_cases hd : digitsOf (stripLeadingHash name) = ""
    · simp [hd]
    · simp [hd]
  · intro name
    constructor
    · intro h
      by_cases hn : name = ""
      · simp [deriveOrderNumberFromName, hn] at h
      · by_cases hd : digitsOf (stripLeadingHash name) = ""
        · simp [deriveOrderNumberFromName, hn, hd] at h
          obtain ⟨l⟩ := name
          cases l with
          | nil => exact absurd rfl hn
          | cons c rest =>
            by_cases hc : c = '#'
            · subst hc
              have hrest : rest = [] := by
                have := congrArg String.data h
                simpa [stripLeadingHash] using this
              subst hrest
              rfl
            · exfalso
              have heq : stripLeadingHash ⟨c :: rest⟩ = ⟨c :: rest⟩ := by
                unfold stripLeadingHash
                cases c with
                | mk v hv => simp [hc]
              rw [heq] at h
              exact hn h
        · simp [deriveOrderNumberFromName, hn, hd] at h
    · intro h
      subst h
      decide

/-- Witness for C10: concrete instances of each part of the amended claim. -/
theorem c10_witness :
    GqlSuccess.orderNumber ⟨"#1001", some "1001", [⟨"PT", "h", "img", ["S1"]⟩]⟩
      = deriveOrderNumberFromName "#1001"
    ∧ (deriveOrderNumberFromName "" = none ↔ ("" : String) = "")
    ∧ deriveOrderNumberFromName "LS74193"
        = some (if digitsOf (stripLeadingHash "LS74193") ≠ ""
                then digitsOf (stripLeadingHash "LS74193")
                else stripLeadingHash "LS74193")
    ∧ (deriveOrderNumberFromName "#" = some "" ↔ ("#" : String) = "#") :=
  ⟨c10_order_number_amended.1 ⟨"shop", "token"⟩ ⟨"1001", "AB1"⟩
      [⟨"#1001", "AB1", "", [⟨"T", "S1", "h", "PT", "img"⟩]⟩]
      ⟨"#1001", some "1001", [⟨"PT", "h", "img", ["S1"]⟩]⟩ (by decide),
   c10_order_number_amended.2.1 "",
   c10_order_number_amended.2.2.1 "LS74193" (by decide),
   c10_order_number_amended.2.2.2 "#"⟩

end HelpHub
